import Mathlib

/-!
Shallow embedding of the state-hydration and instrumentation pipeline of
`src/app/utils/steemApi.js` together with the timing registry of
`src/server/utils/TimingUtils.js`, and proofs of the specified properties.

Modelling conventions:
* JavaScript plain objects used as string-keyed dictionaries (`content`,
  `discussion_idx`, `state`, the `activeTimers` Map) are modelled as
  insertion-ordered association lists with `mapSet` / `mapHas` /
  `mapDelete` / `mapLookup`, which mirror the semantics of property
  assignment and of `Map.set` / `Map.has` / `Map.delete`.
* `null` / `undefined` values are modelled with `Option`.
* Backend errors are values carrying their `message` string, because the
  code distinguishes failures only by comparing `err.message` with
  `'Network request failed'`.
* Wall-clock time (`Date.now()`, `process.hrtime()`) and `Math.random()`
  are modelled by an abstract entropy counter in the timer state which
  advances on every instrumentation call.
* `console.log` / `console.error` / `console.time` output is not
  observable state; `console.warn` occurrences in the timer registry are
  counted so that the warning behaviour stays visible.
-/

/-- A backend / runtime error value; the source inspects only `err.message`. -/
structure Err where
  message : String
deriving Repr, DecidableEq

/-- The distinguished transport failure recognized by the source
(`err.message === 'Network request failed'`). -/
def networkErr : Err := ⟨"Network request failed"⟩

/-- A post-like record returned by the backend; the source reads its
`author` and `permlink` fields, the `body` field stands for the rest of
the payload and distinguishes records with equal keys. -/
structure Post where
  author : String
  permlink : String
  body : String
deriving Repr, DecidableEq

/-- The composite content key `post['author'] + '/' + post['permlink']`. -/
def postKey (p : Post) : String := p.author ++ "/" ++ p.permlink

/-- A profile record; the source only tests truthiness of `profile['name']`. -/
structure Profile where
  name : Option String
deriving Repr, DecidableEq

/-- JS truthiness of `profile['name']` (absent or empty string is falsy). -/
def profileHasName (p : Profile) : Bool :=
  match p.name with
  | some s => s ≠ ""
  | none => false

/-! ### Insertion-ordered string-keyed dictionaries (JS objects and Map) -/

/-- `m[k] = v`: update in place if the key exists, else append (JS object
assignment and `Map.set`). -/
def mapSet {α : Type} : List (String × α) → String → α → List (String × α)
  | [], k, v => [(k, v)]
  | (k₁, v₁) :: rest, k, v =>
      if k₁ = k then (k, v) :: rest else (k₁, v₁) :: mapSet rest k v

/-- `Map.has` / key-presence test. -/
def mapHas {α : Type} : List (String × α) → String → Bool
  | [], _ => false
  | (k₁, _) :: rest, k => if k₁ = k then true else mapHas rest k

/-- `Map.delete`. -/
def mapDelete {α : Type} : List (String × α) → String → List (String × α)
  | [], _ => []
  | (k₁, v₁) :: rest, k =>
      if k₁ = k then mapDelete rest k else (k₁, v₁) :: mapDelete rest k

/-- Property read `m[k]`. -/
def mapLookup {α : Type} : List (String × α) → String → Option α
  | [], _ => none
  | (k₁, v₁) :: rest, k => if k₁ = k then some v₁ else mapLookup rest k

/-! ### Timing registry (`src/server/utils/TimingUtils.js`) -/

/-- Process-wide state of the timing utilities: `ENABLE_TIMING`
(read once from `TIME_LOG`), the `activeTimers` Map, an abstract clock
standing for `Date.now()` / `process.hrtime()` / `Math.random()`, and a
count of emitted `console.warn` messages. -/
structure TimerState where
  enabled : Bool
  active : List (String × Nat)
  clock : Nat
  warnings : Nat
deriving Repr, DecidableEq

/-- `generateUniqueLabel(baseLabel, requestId)`: the source branches on JS
truthiness of `requestId` (`if (requestId)`), so a missing id AND the
empty string both fall back to `Date.now()` plus a random suffix, rendered
here from the abstract entropy value; a truthy id gives the deterministic
label `baseLabel + '_' + requestId`. -/
def generateUniqueLabel (baseLabel : String) (requestId : Option String)
    (entropy : Nat) : String :=
  match requestId with
  | some rid =>
      if rid ≠ "" then baseLabel ++ "_" ++ rid
      else baseLabel ++ "_" ++ toString entropy ++ "_" ++ toString entropy
  | none => baseLabel ++ "_" ++ toString entropy ++ "_" ++ toString entropy

/-- `safeConsoleTime(label, requestId)`: when enabled, registers the
unique label with the current instant and returns it; no-op returning
`null` when disabled. -/
def safeConsoleTime (st : TimerState) (label : String) (requestId : Option String) :
    TimerState × Option String :=
  if st.enabled then
    let uniqueLabel := generateUniqueLabel label requestId st.clock
    ({ st with
        active := mapSet st.active uniqueLabel st.clock
        clock := st.clock + 1 },
      some uniqueLabel)
  else (st, none)

/-- `safeConsoleTimeEnd(label, requestId)`: when enabled, re-derives the
unique label when `label` is not itself registered, then deletes the
entry if present, else warns; no-op when disabled. -/
def safeConsoleTimeEnd (st : TimerState) (label : String)
    (requestId : Option String) : TimerState :=
  if st.enabled then
    let uniqueLabel :=
      if mapHas st.active label then label
      else generateUniqueLabel label requestId st.clock
    if mapHas st.active uniqueLabel then
      { st with active := mapDelete st.active uniqueLabel, clock := st.clock + 1 }
    else
      { st with warnings := st.warnings + 1, clock := st.clock + 1 }
  else st

/-- `safeTimedExecution(label, fn, requestId)`: early-returns `fn()` when
timing is disabled; otherwise starts a timer, runs `fn`, and ends the
timer in a `finally` block. `fn` is modelled as an arbitrary transformer
of the registry state which may succeed or fail. -/
def safeTimedExecution {α : Type} (st : TimerState) (label : String)
    (fn : TimerState → TimerState × Except Err α) (requestId : Option String) :
    TimerState × Except Err α :=
  if st.enabled then
    let r := safeConsoleTime st label requestId
    let uniqueLabel := r.2.getD ""
    let fr := fn r.1
    (safeConsoleTimeEnd fr.1 uniqueLabel none, fr.2)
  else fn st

/-- `getActiveTimerCount()`. -/
def getActiveTimerCount (st : TimerState) : Nat := st.active.length

/-- `clearAllTimers()`. -/
def clearAllTimers (st : TimerState) : TimerState := { st with active := [] }

/-- One external call into the registry, for stating properties about
arbitrary interleavings of `safeConsoleTime` / `safeConsoleTimeEnd`. -/
inductive TimerOp where
  | start (label : String) (requestId : Option String)
  | stop (label : String) (requestId : Option String)

/-- Apply one registry call. -/
def applyOp (st : TimerState) : TimerOp → TimerState
  | TimerOp.start l r => (safeConsoleTime st l r).1
  | TimerOp.stop l r => safeConsoleTimeEnd st l r

/-- Apply a sequence of registry calls. -/
def applyOps (st : TimerState) (ops : List TimerOp) : TimerState :=
  ops.foldl applyOp st

/-- Start timers for one base label under each request id in turn. -/
def startAll (base : String) (rids : List String) (st : TimerState) : TimerState :=
  rids.foldl (fun s r => (safeConsoleTime s base (some r)).1) st

/-- Stop timers for one base label under each request id in turn. -/
def stopAll (base : String) (rids : List String) (st : TimerState) : TimerState :=
  rids.foldl (fun s r => safeConsoleTimeEnd s base (some r)) st

/-! ### Route classifier (`parsePath` in `src/app/utils/steemApi.js`) -/

/-- The classified page intent `{page, tag, sort, key}`; all fields start
as `null`. -/
structure PageIntent where
  page : Option String
  tag : Option String
  sort : Option String
  key : Option (String × String)
deriving Repr, DecidableEq

/-- JS `s[0] == c` (false on the empty string, where `s[0]` is `undefined`). -/
def firstCharIs (s : String) (c : Char) : Bool := s.data.head? = some c

/-- Everything before the first occurrence of `sep`: `url.split(sep)[0]`. -/
def takeUntilChar (sep : Char) : List Char → List Char
  | [] => []
  | c :: rest => if c = sep then [] else c :: takeUntilChar sep rest

/-- JS `String.split` on a single-character separator. -/
def splitList (sep : Char) : List Char → List (List Char)
  | [] => [[]]
  | c :: rest =>
      match splitList sep rest with
      | [] => [[]]
      | h :: t => if c = sep then [] :: h :: t else (c :: h) :: t

/-- The recognized sort keywords. -/
def sortKeywords : List String :=
  ["trending", "promoted", "hot", "created", "payout", "payout_comments", "muted"]

/-- The recognized account-tab keywords. -/
def acctTabs : List String :=
  ["blog", "feed", "posts", "comments", "replies", "payout"]

/-- JS `Array.includes` on a list of strings. -/
def includes (l : List String) (s : String) : Bool := l.any (fun x => x = s)

/-- `parsePath(url)`: strip the query string, one leading and one trailing
slash, default the empty path to `'trending'`, split on `/` and apply the
first matching classification rule. -/
def parsePath (url₀ : String) : PageIntent :=
  let u₁ : List Char := takeUntilChar '?' url₀.data
  let u₂ : List Char := if u₁ ≠ [] ∧ u₁.head? = some '/' then u₁.tail else u₁
  let u₃ : List Char :=
    if u₂ ≠ [] ∧ u₂.getLast? = some '/' then u₂.dropLast else u₂
  let u : List Char := if u₃ = [] then "trending".data else u₃
  let part : List String := (splitList '/' u).map (fun l => ⟨l⟩)
  let parts : Nat := part.length
  if parts = 1 ∧ includes sortKeywords (part.getD 0 "") then
    { page := some "posts", tag := some "", sort := some (part.getD 0 ""), key := none }
  else if parts = 2 ∧ includes sortKeywords (part.getD 0 "") then
    { page := some "posts", tag := some (part.getD 1 ""),
      sort := some (part.getD 0 ""), key := none }
  else if parts = 3 ∧ firstCharIs (part.getD 1 "") '@' then
    { page := some "thread", tag := some (part.getD 0 ""), sort := none,
      key := some (part.getD 1 "", part.getD 2 "") }
  else if parts = 1 ∧ firstCharIs (part.getD 0 "") '@' then
    { page := some "account", tag := some (part.getD 0 ""), sort := some "blog",
      key := none }
  else if parts = 2 ∧ firstCharIs (part.getD 0 "") '@' then
    if includes acctTabs (part.getD 1 "") then
      { page := some "account", tag := some (part.getD 0 ""),
        sort := some (part.getD 1 ""), key := none }
    else
      { page := none, tag := some (part.getD 0 ""), sort := none, key := none }
  else
    { page := none, tag := none, sort := none, key := none }

/-! ### Backend surface and request effects (`src/app/utils/steemApi.js`) -/

/-- Trending-topic entries are opaque payloads. -/
structure Topic where
  payload : String
deriving Repr, DecidableEq

/-- The opaque backend RPC surface behind `callBridge`, one field per
`bridge.*` method invoked by the source, with the parameters the source
passes. Each call returns data or fails with an error. -/
structure Backend where
  get_account_posts : Option String → String → Option String → Except Err (List Post)
  get_ranked_posts : Option String → Option String → Option String → Except Err (List Post)
  get_discussion : String → String → Except Err (List (String × Post))
  get_community : String → Option String → Except Err String
  get_profile : String → Except Err (Option Profile)
  get_trending_topics : Nat → Except Err (List Topic)

/-- Effects threaded through one hydration request: the process-wide
timer registry and the number of `changeRPCNodeToDefault()` invocations
(the endpoint-reset hook). -/
structure Eff where
  tm : TimerState
  resets : Nat
deriving Repr, DecidableEq

/-- `callBridge`: resolves with the backend result, or logs, invokes
`changeRPCNodeToDefault()` when the failure is the network failure class,
and re-raises the error. -/
def callBridgeE {α : Type} (r : Except Err α) (eff : Eff) : Eff × Except Err α :=
  match r with
  | Except.ok v => (eff, Except.ok v)
  | Except.error e =>
      if e.message = "Network request failed" then
        ({ eff with resets := eff.resets + 1 }, Except.error e)
      else (eff, Except.error e)

/-- `safeConsoleTime` lifted to the request effects (the returned label is
discarded, as at every call site in `steemApi.js`). -/
def timeE (label : String) (rid : Option String) (eff : Eff) : Eff :=
  { eff with tm := (safeConsoleTime eff.tm label rid).1 }

/-- `safeConsoleTimeEnd` lifted to the request effects. -/
def timeEndE (label : String) (rid : Option String) (eff : Eff) : Eff :=
  { eff with tm := safeConsoleTimeEnd eff.tm label rid }

/-- JS string interpolation of a possibly-null value, `${x}`. -/
def jstr (o : Option String) : String := o.getD "null"

/-- JS `s.slice(1)`. -/
def sliceOne (s : String) : String := String.mk s.data.tail

/-- The `content` / `keys` accumulation loop of `loadPosts`: insert each
record under its composite key and append the key if unseen. -/
def postsLoop : List Post → List (String × Post) → List String →
    (List (String × Post)) × List String
  | [], content, keys => (content, keys)
  | post :: rest, content, keys =>
      postsLoop rest (mapSet content (postKey post) post)
        (if keys.any (fun x => x = postKey post) then keys else keys ++ [postKey post])

/-- `{content, discussion_idx}` as returned by `loadPosts`. -/
structure PostsResult where
  content : List (String × Post)
  discussion_idx : List (String × List (String × List String))
deriving Repr, DecidableEq

/-- The account derivation `tag && tag[0] == '@' ? tag.slice(1) : null`
at the top of `loadPosts`. -/
def loadPostsAccount (tag : Option String) : Option String :=
  match tag with
  | some t => if t ≠ "" ∧ firstCharIs t '@' then some (sliceOne t) else none
  | none => none

/-- `loadPosts(sort, tag, observer, ssr, requestId)`: fetch account posts
or ranked posts, then build `content` and a single-tag single-sort
`discussion_idx`. (`ssr` is accepted and unused, as in the source.) -/
def loadPosts (B : Backend) (sort tag observer : Option String) (ssr : Bool)
    (rid : Option String) (eff : Eff) : Eff × Except Err PostsResult :=
  let fetched : Eff × Except Err (List Post) :=
    match loadPostsAccount tag with
    | some acct =>
        let lbl := "timing_get_account_posts_" ++ acct ++ "_" ++ jstr sort
        let eff₁ := timeE lbl rid eff
        (match callBridgeE (B.get_account_posts sort acct observer) eff₁ with
          | (eff₂, Except.ok ps) => (timeEndE lbl rid eff₂, Except.ok ps)
          | (eff₂, Except.error e) => (eff₂, Except.error e))
    | none =>
        let lbl := "timing_get_ranked_posts_" ++ jstr sort ++ "_" ++ jstr tag
        let eff₁ := timeE lbl rid eff
        (match callBridgeE (B.get_ranked_posts sort tag observer) eff₁ with
          | (eff₂, Except.ok ps) => (timeEndE lbl rid eff₂, Except.ok ps)
          | (eff₂, Except.error e) => (eff₂, Except.error e))
  match fetched with
  | (eff₂, Except.ok posts) =>
      let cp := postsLoop posts [] []
      (eff₂, Except.ok ⟨cp.1, [(jstr tag, [(jstr sort, cp.2)])]⟩)
  | (eff₂, Except.error e) => (eff₂, Except.error e)

/-- `loadThread(account, permlink, requestId)`: fetch one discussion tree
(the stored `{ content }` wrapper is represented by the map itself). -/
def loadThread (B : Backend) (account permlink : String) (rid : Option String)
    (eff : Eff) : Eff × Except Err (List (String × Post)) :=
  let author := sliceOne account
  let lbl := "timing_get_discussion_" ++ author ++ "_" ++ permlink
  let eff₁ := timeE lbl rid eff
  match callBridgeE (B.get_discussion author permlink) eff₁ with
  | (eff₂, Except.ok content) => (timeEndE lbl rid eff₂, Except.ok content)
  | (eff₂, Except.error e) => (eff₂, Except.error e)

/-- The per-request state snapshot being assembled. -/
structure StateSnapshot where
  accounts : List (String × String)
  community : List (String × String)
  content : List (String × Post)
  discussion_idx : List (String × List (String × List String))
  profiles : List (String × Profile)
  topics : Option (List Topic)
deriving Repr, DecidableEq

/-- Modelled from the spec: the normalization pass (`stateCleaner` from
`app/redux/stateCleaner`, not part of the sources under verification) is
an external collaborator described only as a pure total transform of the
snapshot; with no further observable behaviour specified it is modelled
as the identity transform. -/
def stateCleaner (s : StateSnapshot) : StateSnapshot := s

/-- The `content` / `discussion_idx` loading step of `getStateAsync`
(pages `posts` and `account` via `loadPosts`, page `thread` via
`loadThread`, otherwise a no-op). -/
def contentStep (B : Backend) (pi : PageIntent) (observer : Option String)
    (ssr : Bool) (rid : Option String) (s : StateSnapshot) (eff : Eff) :
    Eff × Except Err StateSnapshot :=
  if pi.page = some "posts" ∨ pi.page = some "account" then
    let lbl := "timing_loadPosts_" ++ jstr pi.sort ++ "_" ++ jstr pi.tag
    let eff₁ := timeE lbl rid eff
    match loadPosts B pi.sort pi.tag observer ssr rid eff₁ with
    | (eff₂, Except.ok posts) =>
        (timeEndE lbl rid eff₂,
          Except.ok { s with content := posts.content,
                             discussion_idx := posts.discussion_idx })
    | (eff₂, Except.error e) => (eff₂, Except.error e)
  else if pi.page = some "thread" then
    let k := pi.key.getD ("null", "null")
    let lbl := "timing_loadThread_" ++ k.1 ++ "_" ++ k.2
    let eff₁ := timeE lbl rid eff
    match loadThread B k.1 k.2 rid eff₁ with
    | (eff₂, Except.ok content) =>
        (timeEndE lbl rid eff₂, Except.ok { s with content := content })
    | (eff₂, Except.error e) => (eff₂, Except.error e)
  else (eff, Except.ok s)

/-- The best-effort community step of `getStateAsync`: guarded by JS
truthiness of `tag` and by `ifHive(tag)` (an external collaborator from
`app/utils/Community`, supplied as a predicate parameter); any failure
inside the `try` block is swallowed. -/
def communityStep (B : Backend) (ifHive : String → Bool) (tag : Option String)
    (observer : Option String) (rid : Option String) (s : StateSnapshot)
    (eff : Eff) : Eff × Except Err StateSnapshot :=
  match tag with
  | some t =>
      if t ≠ "" ∧ ifHive t then
        let lbl := "timing_get_community_" ++ t
        let eff₁ := timeE lbl rid eff
        match callBridgeE (B.get_community t observer) eff₁ with
        | (eff₂, Except.ok comm) =>
            (timeEndE lbl rid eff₂,
              Except.ok { s with community := mapSet s.community t comm })
        | (eff₂, Except.error _) => (eff₂, Except.ok s)
      else (eff, Except.ok s)
  | none => (eff, Except.ok s)

/-- The acting-account derivation of `getStateAsync`:
`tag && tag[0] == '@' ? tag.slice(1) : page == 'thread' ? key[0].slice(1) : null`. -/
def jsAccountOf (pi : PageIntent) : Option String :=
  match pi.tag with
  | some t =>
      if t ≠ "" ∧ firstCharIs t '@' then some (sliceOne t)
      else if pi.page = some "thread" then some (sliceOne (pi.key.getD ("", "")).1)
      else none
  | none =>
      if pi.page = some "thread" then some (sliceOne (pi.key.getD ("", "")).1)
      else none

/-- The SSR-only profile step of `getStateAsync`: guarded by `ssr` and JS
truthiness of `account`; the fetched profile is attached only when it is
present and has a truthy `name`. The fetch is NOT inside a `try` block. -/
def profileStep (B : Backend) (account : Option String) (ssr : Bool)
    (rid : Option String) (s : StateSnapshot) (eff : Eff) :
    Eff × Except Err StateSnapshot :=
  match account with
  | some a =>
      if ssr ∧ a ≠ "" then
        let lbl := "timing_get_profile_" ++ a
        let eff₁ := timeE lbl rid eff
        match callBridgeE (B.get_profile a) eff₁ with
        | (eff₂, Except.ok profile) =>
            let eff₃ := timeEndE lbl rid eff₂
            match profile with
            | some p =>
                if profileHasName p then
                  (eff₃, Except.ok { s with profiles := mapSet s.profiles a p })
                else (eff₃, Except.ok s)
            | none => (eff₃, Except.ok s)
        | (eff₂, Except.error e) => (eff₂, Except.error e)
      else (eff, Except.ok s)
  | none => (eff, Except.ok s)

/-- The SSR-only trending-topics step of `getStateAsync` (failures are
propagated). -/
def topicsStep (B : Backend) (ssr : Bool) (rid : Option String)
    (s : StateSnapshot) (eff : Eff) : Eff × Except Err StateSnapshot :=
  if ssr then
    let eff₁ := timeE "timing_get_trending_topics" rid eff
    match callBridgeE (B.get_trending_topics 12) eff₁ with
    | (eff₂, Except.ok topics) =>
        (timeEndE "timing_get_trending_topics" rid eff₂,
          Except.ok { s with topics := some topics })
    | (eff₂, Except.error e) => (eff₂, Except.error e)
  else (eff, Except.ok s)

/-- The freshly initialized `state` object of `getStateAsync`. -/
def emptySnap : StateSnapshot :=
  { accounts := [], community := [], content := [], discussion_idx := [],
    profiles := [], topics := none }

/-- The `try` block of `getStateAsync`: classify the URL, run the content,
community, profile and topics steps in order over the freshly initialized
snapshot, then apply the normalization pass. -/
def getStateAsyncBody (B : Backend) (ifHive : String → Bool) (url : String)
    (observer : Option String) (ssr : Bool) (rid : Option String) (eff : Eff) :
    Eff × Except Err StateSnapshot :=
  let pi := parsePath url
  let s₀ : StateSnapshot := emptySnap
  match contentStep B pi observer ssr rid s₀ eff with
  | (eff₁, Except.error e) => (eff₁, Except.error e)
  | (eff₁, Except.ok s₁) =>
      match communityStep B ifHive pi.tag observer rid s₁ eff₁ with
      | (eff₂, Except.error e) => (eff₂, Except.error e)
      | (eff₂, Except.ok s₂) =>
          match profileStep B (jsAccountOf pi) ssr rid s₂ eff₂ with
          | (eff₃, Except.error e) => (eff₃, Except.error e)
          | (eff₃, Except.ok s₃) =>
              match topicsStep B ssr rid s₃ eff₃ with
              | (eff₄, Except.error e) => (eff₄, Except.error e)
              | (eff₄, Except.ok s₄) =>
                  let eff₅ := timeE "timing_stateCleaner" rid eff₄
                  let cleansed := stateCleaner s₄
                  let eff₆ := timeEndE "timing_stateCleaner" rid eff₅
                  (eff₆, Except.ok cleansed)

/-- `getStateAsync(url, observer, ssr, requestId)`: the body wrapped in
the top-level `catch`, which logs `{url, requestId, error}`, invokes
`changeRPCNodeToDefault()` when the failure is the network failure class,
and re-raises the error unchanged. (The source's normalization of an
`undefined` observer to `null` is implicit in the `Option` type.) -/
def getStateAsync (B : Backend) (ifHive : String → Bool) (url : String)
    (observer : Option String) (ssr : Bool) (rid : Option String) (eff : Eff) :
    Eff × Except Err StateSnapshot :=
  match getStateAsyncBody B ifHive url observer ssr rid eff with
  | (eff₁, Except.ok snap) => (eff₁, Except.ok snap)
  | (eff₁, Except.error error) =>
      if error.message = "Network request failed" then
        ({ eff₁ with resets := eff₁.resets + 1 }, Except.error error)
      else (eff₁, Except.error error)

/-! ### First-occurrence deduplication properties of the `loadPosts` key list -/

/-- Left fold of the `keys.indexOf(key) == -1 && keys.push(key)` step over a
key sequence, starting from an accumulator. -/
def dedupFrom (acc : List String) : List String → List String
  | [] => acc
  | k :: rest =>
      dedupFrom (if acc.any (fun x => x = k) then acc else acc ++ [k]) rest

/-- First-occurrence deduplication of a key sequence. -/
def dedupFirst (L : List String) : List String := dedupFrom [] L

/-- A backend whose calls all succeed, for the C4 witness. -/
def allOkBackend : Backend :=
  { get_account_posts := fun _ _ _ => Except.ok []
    get_ranked_posts := fun _ _ _ => Except.ok []
    get_discussion := fun _ _ => Except.ok []
    get_community := fun _ _ => Except.ok "community-data"
    get_profile := fun _ => Except.ok (some ⟨some "alice"⟩)
    get_trending_topics := fun _ => Except.ok [⟨"topic"⟩] }

/-- The initial request effects used by concrete evaluations. -/
def eff0 : Eff := ⟨⟨false, [], 0, 0⟩, 0⟩

/-! ### C1, C2, C3: error behaviour of `getStateAsync` -/

/-- A backend whose profile fetch fails, all other calls succeeding. -/
def profileErrBackend : Backend :=
  { get_account_posts := fun _ _ _ => Except.ok []
    get_ranked_posts := fun _ _ _ => Except.ok []
    get_discussion := fun _ _ => Except.ok []
    get_community := fun _ _ => Except.ok "community-data"
    get_profile := fun _ => Except.error ⟨"profile unavailable"⟩
    get_trending_topics := fun _ => Except.ok [] }

/-- A backend whose primary ranked-posts fetch fails with the network
failure class. -/
def networkFailBackend : Backend :=
  { get_account_posts := fun _ _ _ => Except.ok []
    get_ranked_posts := fun _ _ _ => Except.error networkErr
    get_discussion := fun _ _ => Except.ok []
    get_community := fun _ _ => Except.ok ""
    get_profile := fun _ => Except.ok none
    get_trending_topics := fun _ => Except.ok [] }

/-- A backend whose primary ranked-posts fetch fails with an
application-level error. -/
def remoteFailBackend : Backend :=
  { get_account_posts := fun _ _ _ => Except.ok []
    get_ranked_posts := fun _ _ _ => Except.error ⟨"remote failure"⟩
    get_discussion := fun _ _ => Except.ok []
    get_community := fun _ _ => Except.ok ""
    get_profile := fun _ => Except.ok none
    get_trending_topics := fun _ => Except.ok [] }

/-- The primary content fetch issued for a page intent (the account-posts
or ranked-posts call of `loadPosts`, or the discussion call of
`loadThread`), asserted to fail with error `e`; intents with no content
fetch (`page: none`) have no primary fetch, so the assertion is `False`
there. -/
def primaryFetchFails (B : Backend) (pi : PageIntent) (observer : Option String)
    (e : Err) : Prop :=
  if pi.page = some "posts" ∨ pi.page = some "account" then
    (match loadPostsAccount pi.tag with
      | some acct => B.get_account_posts pi.sort acct observer
      | none => B.get_ranked_posts pi.sort pi.tag observer) = Except.error e
  else if pi.page = some "thread" then
    B.get_discussion (sliceOne (pi.key.getD ("null", "null")).1)
      (pi.key.getD ("null", "null")).2 = Except.error e
  else False

/-- A backend all of whose content fetches fail with the network failure
class, auxiliary calls succeeding. -/
def networkFailAllBackend : Backend :=
  { get_account_posts := fun _ _ _ => Except.error networkErr
    get_ranked_posts := fun _ _ _ => Except.error networkErr
    get_discussion := fun _ _ => Except.error networkErr
    get_community := fun _ _ => Except.ok ""
    get_profile := fun _ => Except.ok none
    get_trending_topics := fun _ => Except.ok [] }

/-- A backend whose trending-topics fetch fails, all other calls
succeeding. -/
def topicsFailBackend : Backend :=
  { get_account_posts := fun _ _ _ => Except.ok []
    get_ranked_posts := fun _ _ _ => Except.ok []
    get_discussion := fun _ _ => Except.ok []
    get_community := fun _ _ => Except.ok ""
    get_profile := fun _ => Except.ok none
    get_trending_topics := fun _ => Except.error ⟨"topics down"⟩ }

/-! ### Proofs -/

theorem mapHas_mapDelete_self {α : Type} (m : List (String × α)) (k : String) :
    mapHas (mapDelete m k) k = false := by
  induction m with
  | nil => rfl
  | cons p rest ih =>
      by_cases h : p.1 = k <;> simp [mapDelete, mapHas, h, ih]

theorem mapHas_mapDelete_ne {α : Type} (m : List (String × α)) (k k₂ : String)
    (h : k₂ ≠ k) : mapHas (mapDelete m k) k₂ = mapHas m k₂ := by
  induction m with
  | nil => rfl
  | cons p rest ih =>
      by_cases h1 : p.1 = k
      · have h2 : ¬ k = k₂ := fun hc => h hc.symm
        simp [mapDelete, mapHas, h1, h2, ih]
      · by_cases h2 : p.1 = k₂ <;> simp [mapDelete, mapHas, h1, h2, h, ih]

theorem mapLookup_mapSet {α : Type} (m : List (String × α)) (k : String) (v : α)
    (k₂ : String) :
    mapLookup (mapSet m k v) k₂ = if k₂ = k then some v else mapLookup m k₂ := by
  induction m with
  | nil =>
      by_cases h : k₂ = k <;> simp [mapSet, mapLookup, h, Ne.symm]
  | cons p rest ih =>
      by_cases h1 : p.1 = k
      · by_cases h2 : k₂ = k <;>
          simp [mapSet, mapLookup, h1, h2, Ne.symm, ih]
      · by_cases h2 : p.1 = k₂
        · have h3 : ¬ k₂ = k := by
            intro hc
            exact h1 (h2.trans hc)
          simp [mapSet, mapLookup, h1, h2, h3]
        · simp [mapSet, mapLookup, h1, h2, ih]

theorem mapSet_of_not_has {α : Type} (m : List (String × α)) (k : String) (v : α)
    (h : mapHas m k = false) : mapSet m k v = m ++ [(k, v)] := by
  induction m with
  | nil => rfl
  | cons p rest ih =>
      by_cases h1 : p.1 = k
      · simp [mapHas, h1] at h
      · simp [mapHas, h1] at h
        simp [mapSet, h1, ih h]

theorem mapHas_append {α : Type} (m₁ m₂ : List (String × α)) (k : String) :
    mapHas (m₁ ++ m₂) k = (mapHas m₁ k || mapHas m₂ k) := by
  induction m₁ with
  | nil => simp [mapHas]
  | cons p rest ih =>
      by_cases h : p.1 = k <;> simp [mapHas, h, ih]

theorem mapHas_true_iff {α : Type} (m : List (String × α)) (k : String) :
    mapHas m k = true ↔ k ∈ m.map Prod.fst := by
  induction m with
  | nil => simp [mapHas]
  | cons p rest ih =>
      by_cases h : p.1 = k
      · simp [mapHas, h]
      · have h' : ¬ k = p.1 := fun hc => h hc.symm
        simp [mapHas, h, h', ih]

theorem mapDelete_of_not_has {α : Type} (m : List (String × α)) (k : String)
    (h : mapHas m k = false) : mapDelete m k = m := by
  induction m with
  | nil => rfl
  | cons p rest ih =>
      by_cases h1 : p.1 = k
      · simp [mapHas, h1] at h
      · simp [mapHas, h1] at h
        simp [mapDelete, h1, ih h]

theorem anyEq_eq_true (l : List String) (k : String) :
    (l.any (fun x => x = k)) = true ↔ k ∈ l := by
  simp [List.any_eq_true]

theorem postsLoop_keys (posts : List Post) :
    ∀ content keys,
      (postsLoop posts content keys).2 = dedupFrom keys (posts.map postKey) := by
  induction posts with
  | nil =>
      intro content keys
      rfl
  | cons p rest ih =>
      intro content keys
      simp only [postsLoop, List.map, dedupFrom]
      exact ih _ _

theorem dedupFrom_eq (L : List String) :
    ∀ acc, dedupFrom acc L =
      acc ++ (dedupFirst L).filter (fun x => !(acc.any (fun y => y = x))) := by
  induction L with
  | nil =>
      intro acc
      simp [dedupFrom, dedupFirst]
  | cons k L' ih =>
      intro acc
      have hfirst : dedupFirst (k :: L') =
          [k] ++ (dedupFirst L').filter (fun x => !([k].any (fun y => y = x))) := by
        show dedupFrom [] (k :: L') = _
        simp only [dedupFrom, List.any_nil, if_neg Bool.false_ne_true, List.nil_append]
        exact ih [k]
      rw [hfirst]
      show dedupFrom (if acc.any (fun x => x = k) then acc else acc ++ [k]) L' = _
      rw [ih]
      by_cases hk : acc.any (fun x => x = k) = true
      · rw [if_pos hk]
        rw [List.filter_append, List.filter_filter]
        have hsingle : [k].filter (fun x => !(acc.any (fun y => y = x))) = [] := by
          simp [List.filter, hk]
        have hpt : (fun x => !(acc.any (fun y => y = x)) && !([k].any (fun y => y = x)))
            = (fun x => !(acc.any (fun y => y = x))) := by
          funext x
          by_cases hx : x = k
          · subst hx
            simp [hk]
          · have hx2 : ¬ k = x := fun h => hx h.symm
            have h1 : ([k].any fun y => decide (y = x)) = false := by
              simp [hx2]
            rw [h1]
            simp
        rw [hsingle, hpt]
        simp
      · rw [if_neg hk]
        rw [List.filter_append, List.filter_filter]
        have hsingle : [k].filter (fun x => !(acc.any (fun y => y = x))) = [k] := by
          simp [List.filter, hk]
        have hpt : (fun x => !((acc ++ [k]).any (fun y => y = x)))
            = (fun x => !(acc.any (fun y => y = x)) && !([k].any (fun y => y = x))) := by
          funext x
          simp [List.any_append, Bool.not_or]
        rw [hsingle, hpt]
        simp [List.append_assoc]

theorem dedupFirst_cons (k : String) (L : List String) :
    dedupFirst (k :: L) =
      k :: (dedupFirst L).filter (fun x => !([k].any (fun y => y = x))) := by
  show dedupFrom [] (k :: L) = _
  simp only [dedupFrom, List.any_nil, if_neg Bool.false_ne_true, List.nil_append]
  rw [dedupFrom_eq]
  rfl

theorem dedupFirst_mem (L : List String) (k : String) :
    k ∈ dedupFirst L ↔ k ∈ L := by
  induction L with
  | nil => simp [dedupFirst, dedupFrom]
  | cons x L' ih =>
      rw [dedupFirst_cons]
      by_cases hk : k = x
      · subst hk
        simp
      · simp only [List.mem_cons, List.mem_filter, hk, false_or]
        have hk2 : ¬ x = k := fun h => hk h.symm
        have hany : ([x].any (fun y => decide (y = k))) = false := by
          simp [hk2]
        simp [hany, ih]

theorem dedupFirst_nodup (L : List String) : (dedupFirst L).Nodup := by
  induction L with
  | nil => simp [dedupFirst, dedupFrom]
  | cons x L' ih =>
      rw [dedupFirst_cons]
      refine List.Nodup.cons ?_ (ih.filter _)
      intro hx
      rcases List.mem_filter.mp hx with ⟨_, hpx⟩
      simp [List.any] at hpx

theorem dedupFirst_pairwise (L : List String) :
    (dedupFirst L).Pairwise (fun a b => L.indexOf a < L.indexOf b) := by
  induction L with
  | nil => simp [dedupFirst, dedupFrom]
  | cons x L' ih =>
      rw [dedupFirst_cons]
      rw [List.pairwise_cons]
      constructor
      · intro b hb
        rcases List.mem_filter.mp hb with ⟨_, hpb⟩
        have hbx : x ≠ b := by
          intro hc
          subst hc
          simp [List.any] at hpb
        rw [List.indexOf_cons_self]
        rw [List.indexOf_cons_ne _ hbx]
        exact Nat.succ_pos _
      · have hsub : List.Sublist
            ((dedupFirst L').filter (fun y => !([x].any (fun z => z = y))))
            (dedupFirst L') := List.filter_sublist _
        have hpw := List.Pairwise.sublist hsub ih
        refine List.Pairwise.imp_of_mem ?_ hpw
        intro a b ha hb hab
        have hxa : x ≠ a := by
          intro hc
          rcases List.mem_filter.mp ha with ⟨_, hpa⟩
          subst hc
          simp [List.any] at hpa
        have hxb : x ≠ b := by
          intro hc
          rcases List.mem_filter.mp hb with ⟨_, hpb⟩
          subst hc
          simp [List.any] at hpb
        rw [List.indexOf_cons_ne _ hxa, List.indexOf_cons_ne _ hxb]
        exact Nat.succ_lt_succ hab

theorem postsLoop_content (posts : List Post) :
    ∀ content keys k,
      mapLookup (postsLoop posts content keys).1 k =
        Option.or (posts.reverse.find? (fun p => postKey p = k)) (mapLookup content k) := by
  induction posts with
  | nil =>
      intro c ks k
      simp [postsLoop]
  | cons p rest ih =>
      intro c ks k
      simp only [postsLoop]
      rw [ih]
      rw [List.reverse_cons, List.find?_append, Option.or_assoc]
      have hmr : mapLookup (mapSet c (postKey p) p) k =
          Option.or ([p].find? (fun q => postKey q = k)) (mapLookup c k) := by
        rw [mapLookup_mapSet]
        by_cases hk : k = postKey p
        · simp [List.find?, hk]
        · have hk' : ¬ postKey p = k := fun h => hk h.symm
          simp [List.find?, hk, hk']
      rw [hmr]

theorem loadPosts_account_eq (B : Backend) (sort tag observer : Option String)
    (ssr : Bool) (rid : Option String) (acct : String) (posts : List Post)
    (hacct : loadPostsAccount tag = some acct)
    (h : B.get_account_posts sort acct observer = Except.ok posts) (eff : Eff) :
    loadPosts B sort tag observer ssr rid eff =
      (timeEndE ("timing_get_account_posts_" ++ acct ++ "_" ++ jstr sort) rid
          (timeE ("timing_get_account_posts_" ++ acct ++ "_" ++ jstr sort) rid eff),
        Except.ok ⟨(postsLoop posts [] []).1,
          [(jstr tag, [(jstr sort, (postsLoop posts [] []).2)])]⟩) := by
  simp [loadPosts, hacct, h, callBridgeE]

theorem loadPosts_ranked_eq (B : Backend) (sort tag observer : Option String)
    (ssr : Bool) (rid : Option String) (posts : List Post)
    (hacct : loadPostsAccount tag = none)
    (h : B.get_ranked_posts sort tag observer = Except.ok posts) (eff : Eff) :
    loadPosts B sort tag observer ssr rid eff =
      (timeEndE ("timing_get_ranked_posts_" ++ jstr sort ++ "_" ++ jstr tag) rid
          (timeE ("timing_get_ranked_posts_" ++ jstr sort ++ "_" ++ jstr tag) rid eff),
        Except.ok ⟨(postsLoop posts [] []).1,
          [(jstr tag, [(jstr sort, (postsLoop posts [] []).2)])]⟩) := by
  simp [loadPosts, hacct, h, callBridgeE]

theorem loadPosts_ok (B : Backend) (sort tag observer : Option String) (ssr : Bool)
    (rid : Option String) (eff : Eff) (posts : List Post)
    (h : (match loadPostsAccount tag with
          | some acct => B.get_account_posts sort acct observer
          | none => B.get_ranked_posts sort tag observer) = Except.ok posts) :
    ∃ eff₂, loadPosts B sort tag observer ssr rid eff =
      (eff₂, Except.ok ⟨(postsLoop posts [] []).1,
        [(jstr tag, [(jstr sort, (postsLoop posts [] []).2)])]⟩) := by
  cases hacct : loadPostsAccount tag with
  | some acct =>
      rw [hacct] at h
      exact ⟨_, loadPosts_account_eq B sort tag observer ssr rid acct posts hacct h eff⟩
  | none =>
      rw [hacct] at h
      exact ⟨_, loadPosts_ranked_eq B sort tag observer ssr rid posts hacct h eff⟩

/-- C6: for every ordered backend response (even with repeated posts), the
`discussion_idx[tag][sort]` list built by `loadPosts` holds each composite
key at most once, in order of first occurrence in the response. -/
theorem C6_loadPosts_discussion_idx_first_seen_nodup (B : Backend)
    (sort tag observer : Option String) (ssr : Bool) (rid : Option String)
    (eff : Eff) (posts : List Post)
    (h : (match loadPostsAccount tag with
          | some acct => B.get_account_posts sort acct observer
          | none => B.get_ranked_posts sort tag observer) = Except.ok posts) :
    ∃ eff₂ keys,
      loadPosts B sort tag observer ssr rid eff =
        (eff₂, Except.ok ⟨(postsLoop posts [] []).1,
          [(jstr tag, [(jstr sort, keys)])]⟩) ∧
      keys.Nodup ∧
      (∀ k, k ∈ keys ↔ k ∈ posts.map postKey) ∧
      keys.Pairwise (fun a b =>
        (posts.map postKey).indexOf a < (posts.map postKey).indexOf b) := by
  obtain ⟨eff₂, hl⟩ := loadPosts_ok B sort tag observer ssr rid eff posts h
  refine ⟨eff₂, (postsLoop posts [] []).2, hl, ?_, ?_, ?_⟩
  · rw [postsLoop_keys]
    exact dedupFirst_nodup _
  · intro k
    rw [postsLoop_keys]
    exact dedupFirst_mem _ _
  · rw [postsLoop_keys]
    exact dedupFirst_pairwise _

/-- C6 witness at a concrete duplicated backend response. -/
theorem C6_witness :
    ∃ eff₂ keys,
      loadPosts
        { get_account_posts := fun _ _ _ => Except.ok []
          get_ranked_posts := fun _ _ _ => Except.ok
            [⟨"alice", "p1", "v1"⟩, ⟨"bob", "p2", "v2"⟩, ⟨"alice", "p1", "v3"⟩]
          get_discussion := fun _ _ => Except.ok []
          get_community := fun _ _ => Except.ok ""
          get_profile := fun _ => Except.ok none
          get_trending_topics := fun _ => Except.ok [] }
        (some "trending") (some "") none false (some "r1") ⟨⟨false, [], 0, 0⟩, 0⟩ =
        (eff₂, Except.ok ⟨(postsLoop
            [⟨"alice", "p1", "v1"⟩, ⟨"bob", "p2", "v2"⟩, ⟨"alice", "p1", "v3"⟩] [] []).1,
          [(jstr (some ""), [(jstr (some "trending"), keys)])]⟩) ∧
      keys.Nodup ∧
      (∀ k, k ∈ keys ↔
        k ∈ ([⟨"alice", "p1", "v1"⟩, ⟨"bob", "p2", "v2"⟩,
              ⟨"alice", "p1", "v3"⟩] : List Post).map postKey) ∧
      keys.Pairwise (fun a b =>
        (([⟨"alice", "p1", "v1"⟩, ⟨"bob", "p2", "v2"⟩,
           ⟨"alice", "p1", "v3"⟩] : List Post).map postKey).indexOf a <
         (([⟨"alice", "p1", "v1"⟩, ⟨"bob", "p2", "v2"⟩,
           ⟨"alice", "p1", "v3"⟩] : List Post).map postKey).indexOf b) :=
  C6_loadPosts_discussion_idx_first_seen_nodup _ (some "trending") (some "") none
    false (some "r1") ⟨⟨false, [], 0, 0⟩, 0⟩
    [⟨"alice", "p1", "v1"⟩, ⟨"bob", "p2", "v2"⟩, ⟨"alice", "p1", "v3"⟩] rfl

/-- C10: `loadPosts` returns a `discussion_idx` with exactly one tag entry
holding exactly one sort entry (the first-seen key list); every listed key
is a key of `content`; `content` maps each key to the last backend record
bearing it. -/
theorem C10_loadPosts_content_shape (B : Backend)
    (sort tag observer : Option String) (ssr : Bool) (rid : Option String)
    (eff : Eff) (posts : List Post)
    (h : (match loadPostsAccount tag with
          | some acct => B.get_account_posts sort acct observer
          | none => B.get_ranked_posts sort tag observer) = Except.ok posts) :
    (∃ eff₂, loadPosts B sort tag observer ssr rid eff =
        (eff₂, Except.ok ⟨(postsLoop posts [] []).1,
          [(jstr tag, [(jstr sort, dedupFirst (posts.map postKey))])]⟩)) ∧
    (∀ k, k ∈ dedupFirst (posts.map postKey) →
        (mapLookup (postsLoop posts [] []).1 k).isSome = true) ∧
    (∀ k, mapLookup (postsLoop posts [] []).1 k =
        posts.reverse.find? (fun p => postKey p = k)) ∧
    (dedupFirst (posts.map postKey)).Pairwise (fun a b =>
        (posts.map postKey).indexOf a < (posts.map postKey).indexOf b) := by
  have hcont : ∀ k, mapLookup (postsLoop posts [] []).1 k =
      posts.reverse.find? (fun p => postKey p = k) := by
    intro k
    rw [postsLoop_content]
    simp [mapLookup]
  refine ⟨?_, ?_, hcont, dedupFirst_pairwise _⟩
  · obtain ⟨eff₂, hl⟩ := loadPosts_ok B sort tag observer ssr rid eff posts h
    rw [postsLoop_keys] at hl
    exact ⟨eff₂, hl⟩
  · intro k hk
    rw [hcont k]
    rw [List.find?_isSome]
    have hmem : k ∈ posts.map postKey := (dedupFirst_mem _ _).mp hk
    rcases List.mem_map.mp hmem with ⟨p, hp, hpk⟩
    exact ⟨p, List.mem_reverse.mpr hp, by simp [hpk]⟩

/-- C10 witness at a concrete duplicated backend response. -/
theorem C10_witness :
    (∃ eff₂, loadPosts
        { get_account_posts := fun _ acct _ =>
            Except.ok [⟨"carol", "q", "old"⟩, ⟨"dan", "r", "x"⟩, ⟨"carol", "q", "new"⟩]
          get_ranked_posts := fun _ _ _ => Except.ok []
          get_discussion := fun _ _ => Except.ok []
          get_community := fun _ _ => Except.ok ""
          get_profile := fun _ => Except.ok none
          get_trending_topics := fun _ => Except.ok [] }
        (some "blog") (some "@carol") none false (some "r2") ⟨⟨false, [], 0, 0⟩, 0⟩ =
        (eff₂, Except.ok ⟨(postsLoop
            [⟨"carol", "q", "old"⟩, ⟨"dan", "r", "x"⟩, ⟨"carol", "q", "new"⟩] [] []).1,
          [(jstr (some "@carol"), [(jstr (some "blog"),
            dedupFirst (([⟨"carol", "q", "old"⟩, ⟨"dan", "r", "x"⟩,
              ⟨"carol", "q", "new"⟩] : List Post).map postKey))])]⟩)) ∧
    (∀ k, k ∈ dedupFirst (([⟨"carol", "q", "old"⟩, ⟨"dan", "r", "x"⟩,
          ⟨"carol", "q", "new"⟩] : List Post).map postKey) →
        (mapLookup (postsLoop [⟨"carol", "q", "old"⟩, ⟨"dan", "r", "x"⟩,
          ⟨"carol", "q", "new"⟩] [] []).1 k).isSome = true) ∧
    (∀ k, mapLookup (postsLoop [⟨"carol", "q", "old"⟩, ⟨"dan", "r", "x"⟩,
          ⟨"carol", "q", "new"⟩] [] []).1 k =
        ([⟨"carol", "q", "old"⟩, ⟨"dan", "r", "x"⟩,
          ⟨"carol", "q", "new"⟩] : List Post).reverse.find? (fun p => postKey p = k)) ∧
    (dedupFirst (([⟨"carol", "q", "old"⟩, ⟨"dan", "r", "x"⟩,
        ⟨"carol", "q", "new"⟩] : List Post).map postKey)).Pairwise (fun a b =>
        (([⟨"carol", "q", "old"⟩, ⟨"dan", "r", "x"⟩,
          ⟨"carol", "q", "new"⟩] : List Post).map postKey).indexOf a <
        (([⟨"carol", "q", "old"⟩, ⟨"dan", "r", "x"⟩,
          ⟨"carol", "q", "new"⟩] : List Post).map postKey).indexOf b) :=
  C10_loadPosts_content_shape _ (some "blog") (some "@carol") none false (some "r2")
    ⟨⟨false, [], 0, 0⟩, 0⟩
    [⟨"carol", "q", "old"⟩, ⟨"dan", "r", "x"⟩, ⟨"carol", "q", "new"⟩] rfl

theorem pair_eq_of_snd {α β : Type} (p : α × β) (b : β) (h : p.2 = b) :
    p = (p.1, b) := by
  rw [← h]

theorem communityStep_ok (B : Backend) (ifH : String → Bool) (tag : Option String)
    (observer rid : Option String) (s : StateSnapshot) (eff : Eff) :
    ∃ eff₂ s₂, communityStep B ifH tag observer rid s eff = (eff₂, Except.ok s₂) ∧
      s₂.content = s.content ∧ s₂.discussion_idx = s.discussion_idx := by
  cases tag with
  | none => exact ⟨eff, s, rfl, rfl, rfl⟩
  | some t =>
      by_cases hg : t ≠ "" ∧ ifH t
      · cases hcomm : B.get_community t observer with
        | ok v =>
            exact ⟨_, { s with community := mapSet s.community t v },
              pair_eq_of_snd _ _ (by simp [communityStep, hg, callBridgeE, hcomm]),
              rfl, rfl⟩
        | error e =>
            by_cases hm : e.message = "Network request failed"
            · exact ⟨_, s,
                pair_eq_of_snd _ _
                  (by simp [communityStep, hg, callBridgeE, hcomm, hm]), rfl, rfl⟩
            · exact ⟨_, s,
                pair_eq_of_snd _ _
                  (by simp [communityStep, hg, callBridgeE, hcomm, hm]), rfl, rfl⟩
      · exact ⟨eff, s, by simp [communityStep, hg], rfl, rfl⟩

theorem profileStep_ok (B : Backend) (account : Option String) (ssr : Bool)
    (rid : Option String) (s : StateSnapshot) (eff : Eff)
    (hprof : ∀ a, ∃ p, B.get_profile a = Except.ok p) :
    ∃ eff₂ s₂, profileStep B account ssr rid s eff = (eff₂, Except.ok s₂) ∧
      s₂.content = s.content ∧ s₂.discussion_idx = s.discussion_idx := by
  cases account with
  | none => exact ⟨eff, s, rfl, rfl, rfl⟩
  | some a =>
      by_cases hg : ssr = true ∧ a ≠ ""
      · obtain ⟨p, hp⟩ := hprof a
        cases p with
        | none =>
            exact ⟨_, s,
              pair_eq_of_snd _ _ (by simp [profileStep, hg, callBridgeE, hp]),
              rfl, rfl⟩
        | some q =>
            by_cases hq : profileHasName q
            · exact ⟨_, { s with profiles := mapSet s.profiles a q },
                pair_eq_of_snd _ _
                  (by simp [profileStep, hg, callBridgeE, hp, hq]), rfl, rfl⟩
            · exact ⟨_, s,
                pair_eq_of_snd _ _
                  (by simp [profileStep, hg, callBridgeE, hp, hq]), rfl, rfl⟩
      · exact ⟨eff, s, by simp [profileStep, hg], rfl, rfl⟩

theorem topicsStep_ok (B : Backend) (ssr : Bool) (rid : Option String)
    (s : StateSnapshot) (eff : Eff)
    (htop : ∃ v, B.get_trending_topics 12 = Except.ok v) :
    ∃ eff₂ s₂, topicsStep B ssr rid s eff = (eff₂, Except.ok s₂) ∧
      s₂.content = s.content ∧ s₂.discussion_idx = s.discussion_idx := by
  by_cases hs : ssr = true
  · obtain ⟨v, hv⟩ := htop
    exact ⟨_, { s with topics := some v },
      pair_eq_of_snd _ _ (by simp [topicsStep, hs, callBridgeE, hv]), rfl, rfl⟩
  · exact ⟨eff, s, by simp [topicsStep, hs], rfl, rfl⟩

theorem contentStep_ok_posts (B : Backend) (pi : PageIntent)
    (observer : Option String) (ssr : Bool) (rid : Option String)
    (s : StateSnapshot) (eff : Eff) (posts : List Post)
    (hpage : pi.page = some "posts" ∨ pi.page = some "account")
    (h : (match loadPostsAccount pi.tag with
          | some acct => B.get_account_posts pi.sort acct observer
          | none => B.get_ranked_posts pi.sort pi.tag observer) = Except.ok posts) :
    ∃ eff₁ s₁, contentStep B pi observer ssr rid s eff = (eff₁, Except.ok s₁) := by
  obtain ⟨eff₂, hl⟩ := loadPosts_ok B pi.sort pi.tag observer ssr rid
    (timeE ("timing_loadPosts_" ++ jstr pi.sort ++ "_" ++ jstr pi.tag) rid eff)
    posts h
  refine ⟨timeEndE ("timing_loadPosts_" ++ jstr pi.sort ++ "_" ++ jstr pi.tag)
      rid eff₂,
    { s with content := (postsLoop posts [] []).1,
             discussion_idx :=
               [(jstr pi.tag, [(jstr pi.sort, (postsLoop posts [] []).2)])] }, ?_⟩
  simp only [contentStep, if_pos hpage, hl]

theorem getStateAsyncBody_ok (B : Backend) (ifH : String → Bool) (url : String)
    (observer : Option String) (ssr : Bool) (rid : Option String) (eff eff₁ : Eff)
    (s₁ : StateSnapshot)
    (hcontent : contentStep B (parsePath url) observer ssr rid emptySnap eff =
      (eff₁, Except.ok s₁))
    (hprof : ∀ a, ∃ p, B.get_profile a = Except.ok p)
    (htop : ∃ v, B.get_trending_topics 12 = Except.ok v) :
    ∃ eff' snap, getStateAsyncBody B ifH url observer ssr rid eff =
      (eff', Except.ok snap) ∧
      snap.content = s₁.content ∧ snap.discussion_idx = s₁.discussion_idx := by
  obtain ⟨eff₂, s₂, hcomm, hc2, hd2⟩ :=
    communityStep_ok B ifH (parsePath url).tag observer rid s₁ eff₁
  obtain ⟨eff₃, s₃, hprofE, hc3, hd3⟩ :=
    profileStep_ok B (jsAccountOf (parsePath url)) ssr rid s₂ eff₂ hprof
  obtain ⟨eff₄, s₄, htopE, hc4, hd4⟩ := topicsStep_ok B ssr rid s₃ eff₃ htop
  refine ⟨_, stateCleaner s₄, pair_eq_of_snd _ _ ?_, ?_, ?_⟩
  · simp only [getStateAsyncBody, hcontent, hcomm, hprofE, htopE]
  · simp only [stateCleaner]
    exact hc4.trans (hc3.trans hc2)
  · simp only [stateCleaner]
    exact hd4.trans (hd3.trans hd2)

/-- C4: on a `page: none` classification, `getStateAsync` does not fail
(given that the auxiliary SSR fetches it may still issue succeed) and the
returned snapshot has empty `content` and `discussion_idx`. -/
theorem C4_page_none_empty (B : Backend) (ifH : String → Bool) (url : String)
    (observer : Option String) (ssr : Bool) (rid : Option String) (eff : Eff)
    (hpage : (parsePath url).page = none)
    (hprof : ∀ a, ∃ p, B.get_profile a = Except.ok p)
    (htop : ∃ v, B.get_trending_topics 12 = Except.ok v) :
    ∃ eff' snap, getStateAsync B ifH url observer ssr rid eff =
      (eff', Except.ok snap) ∧ snap.content = [] ∧ snap.discussion_idx = [] := by
  have hcontent : contentStep B (parsePath url) observer ssr rid emptySnap eff =
      (eff, Except.ok emptySnap) := by
    simp [contentStep, hpage]
  obtain ⟨eff', snap, hbody, hc, hd⟩ :=
    getStateAsyncBody_ok B ifH url observer ssr rid eff eff emptySnap hcontent
      hprof htop
  refine ⟨eff', snap, ?_, ?_, ?_⟩
  · simp only [getStateAsync, hbody]
  · simpa [emptySnap] using hc
  · simpa [emptySnap] using hd

/-- C4 witness at a concrete unrecognized URL. -/
theorem C4_witness :
    ∃ eff' snap, getStateAsync allOkBackend (fun _ => true) "@alice/settings"
        (some "bob") true (some "w4") eff0 =
      (eff', Except.ok snap) ∧ snap.content = [] ∧ snap.discussion_idx = [] :=
  C4_page_none_empty allOkBackend (fun _ => true) "@alice/settings" (some "bob")
    true (some "w4") eff0 rfl (fun a => ⟨some ⟨some "alice"⟩, rfl⟩)
    ⟨[⟨"topic"⟩], rfl⟩

/-- C1 counterexample: on the account page `@alice` in full SSR mode with a
failing profile fetch, `getStateAsync` propagates the profile-fetch error
instead of returning a snapshot. -/
theorem C1_counterexample :
    (getStateAsync profileErrBackend (fun _ => false) "@alice" none true none
        eff0).2 = Except.error ⟨"profile unavailable"⟩ := rfl

/-- C1 amended: in full server-rendering mode, for EVERY url from which an
acting account is derived (a tag beginning with `@`, or the thread author
via `key[0].slice(1)`), a failure of the profile fetch is NOT caught: once
the content-loading step has succeeded, the profile error propagates out
of `getStateAsync` (re-raised unchanged by the top-level catch), even
though community-fetch failures are swallowed. -/
theorem C1_profile_error_propagates (B : Backend) (ifH : String → Bool)
    (url : String) (observer : Option String) (rid : Option String) (eff : Eff)
    (a : String) (e : Err)
    (hacct : jsAccountOf (parsePath url) = some a) (ha : a ≠ "")
    (hcontent : ∃ eff₁ s₁, contentStep B (parsePath url) observer true rid
      emptySnap eff = (eff₁, Except.ok s₁))
    (hprof : B.get_profile a = Except.error e) :
    (getStateAsync B ifH url observer true rid eff).2 = Except.error e := by
  obtain ⟨eff₁, s₁, hcontent⟩ := hcontent
  obtain ⟨eff₂, s₂, hcomm, _, _⟩ :=
    communityStep_ok B ifH (parsePath url).tag observer rid s₁ eff₁
  have hprofE : ∃ eff₃,
      profileStep B (jsAccountOf (parsePath url)) true rid s₂ eff₂ =
        (eff₃, Except.error e) := by
    rw [hacct]
    refine ⟨_, pair_eq_of_snd _ _ ?_⟩
    by_cases hm : e.message = "Network request failed" <;>
      simp [profileStep, ha, callBridgeE, hprof, hm]
  obtain ⟨eff₃, hprofE⟩ := hprofE
  have hbody : getStateAsyncBody B ifH url observer true rid eff =
      (eff₃, Except.error e) := by
    simp only [getStateAsyncBody, hcontent, hcomm, hprofE]
  by_cases hm : e.message = "Network request failed" <;>
    simp [getStateAsync, hbody, hm]

/-- C1 witness for the amended statement: once at an account page
(`@alice`, account from the tag) and once at a thread page
(`funny/@bob/p1`, account from the thread author). -/
theorem C1_witness :
    (getStateAsync profileErrBackend (fun _ => false) "@alice" none true
        (some "w1") eff0).2 = Except.error ⟨"profile unavailable"⟩ ∧
    (getStateAsync profileErrBackend (fun _ => false) "funny/@bob/p1" none true
        (some "w1") eff0).2 = Except.error ⟨"profile unavailable"⟩ :=
  ⟨C1_profile_error_propagates profileErrBackend (fun _ => false) "@alice" none
      (some "w1") eff0 "alice" ⟨"profile unavailable"⟩ rfl (by decide)
      ⟨_, _, rfl⟩ rfl,
    C1_profile_error_propagates profileErrBackend (fun _ => false)
      "funny/@bob/p1" none (some "w1") eff0 "bob" ⟨"profile unavailable"⟩ rfl
      (by decide) ⟨_, _, rfl⟩ rfl⟩

/-- C2 counterexample: with a network failure from the primary content
fetch, the endpoint-reset hook ends up invoked twice (once inside
`callBridge`, once in the top-level catch of `getStateAsync`), not once. -/
theorem C2_counterexample :
    (getStateAsync networkFailBackend (fun _ => false) "trending" none false none
        eff0).1.resets = 2 ∧
    (getStateAsync networkFailBackend (fun _ => false) "trending" none false none
        eff0).2 = Except.error networkErr ∧
    ¬ (getStateAsync networkFailBackend (fun _ => false) "trending" none false
        none eff0).1.resets = 1 :=
  ⟨rfl, rfl, by decide⟩

theorem timeE_resets (l : String) (r : Option String) (eff : Eff) :
    (timeE l r eff).resets = eff.resets := rfl

theorem loadPosts_network_error (B : Backend) (sort tag observer : Option String)
    (ssr : Bool) (rid : Option String) (eff : Eff)
    (h : (match loadPostsAccount tag with
          | some acct => B.get_account_posts sort acct observer
          | none => B.get_ranked_posts sort tag observer) =
      Except.error networkErr) :
    ∃ eff₂, loadPosts B sort tag observer ssr rid eff =
      (eff₂, Except.error networkErr) ∧ eff₂.resets = eff.resets + 1 := by
  cases hacct : loadPostsAccount tag with
  | some acct =>
      rw [hacct] at h
      have h2 : B.get_account_posts sort acct observer =
          Except.error networkErr := h
      refine ⟨_, pair_eq_of_snd _ _ ?_, ?_⟩
      · simp [loadPosts, hacct, h2, callBridgeE, networkErr]
      · simp [loadPosts, hacct, h2, callBridgeE, networkErr, timeE]
  | none =>
      rw [hacct] at h
      have h2 : B.get_ranked_posts sort tag observer =
          Except.error networkErr := h
      refine ⟨_, pair_eq_of_snd _ _ ?_, ?_⟩
      · simp [loadPosts, hacct, h2, callBridgeE, networkErr]
      · simp [loadPosts, hacct, h2, callBridgeE, networkErr, timeE]

theorem loadThread_network_error (B : Backend) (k₁ k₂ : String)
    (rid : Option String) (eff : Eff)
    (h : B.get_discussion (sliceOne k₁) k₂ = Except.error networkErr) :
    ∃ eff₂, loadThread B k₁ k₂ rid eff = (eff₂, Except.error networkErr) ∧
      eff₂.resets = eff.resets + 1 := by
  refine ⟨_, pair_eq_of_snd _ _ ?_, ?_⟩
  · simp [loadThread, h, callBridgeE, networkErr]
  · simp [loadThread, h, callBridgeE, networkErr, timeE]

theorem contentStep_network_error (B : Backend) (pi : PageIntent)
    (observer : Option String) (ssr : Bool) (rid : Option String)
    (s : StateSnapshot) (eff : Eff)
    (h : primaryFetchFails B pi observer networkErr) :
    ∃ eff₁, contentStep B pi observer ssr rid s eff =
      (eff₁, Except.error networkErr) ∧ eff₁.resets = eff.resets + 1 := by
  by_cases hp : pi.page = some "posts" ∨ pi.page = some "account"
  · have h' : (match loadPostsAccount pi.tag with
        | some acct => B.get_account_posts pi.sort acct observer
        | none => B.get_ranked_posts pi.sort pi.tag observer) =
        Except.error networkErr := by
      unfold primaryFetchFails at h
      rw [if_pos hp] at h
      exact h
    obtain ⟨eff₂, hl, hr⟩ := loadPosts_network_error B pi.sort pi.tag observer
      ssr rid
      (timeE ("timing_loadPosts_" ++ jstr pi.sort ++ "_" ++ jstr pi.tag) rid eff)
      h'
    refine ⟨eff₂, ?_, by rw [hr, timeE_resets]⟩
    simp only [contentStep, if_pos hp, hl]
  · by_cases ht : pi.page = some "thread"
    · have h' : B.get_discussion (sliceOne (pi.key.getD ("null", "null")).1)
          (pi.key.getD ("null", "null")).2 = Except.error networkErr := by
        unfold primaryFetchFails at h
        rw [if_neg hp, if_pos ht] at h
        exact h
      obtain ⟨eff₂, hl, hr⟩ := loadThread_network_error B
        (pi.key.getD ("null", "null")).1 (pi.key.getD ("null", "null")).2 rid
        (timeE ("timing_loadThread_" ++ (pi.key.getD ("null", "null")).1 ++ "_"
          ++ (pi.key.getD ("null", "null")).2) rid eff) h'
      refine ⟨eff₂, ?_, by rw [hr, timeE_resets]⟩
      simp only [contentStep, if_neg hp, if_pos ht, hl]
    · unfold primaryFetchFails at h
      rw [if_neg hp, if_neg ht] at h
      exact h.elim

/-- C2 amended: for EVERY hydration whose primary content fetch (ranked
posts, account posts, or discussion, whichever the page intent selects)
fails with a `NetworkError`, `getStateAsync` fails with that error and the
endpoint-reset hook has been invoked exactly twice for the failure: once
in `callBridge` and once in the top-level catch. -/
theorem C2_network_error_double_reset (B : Backend) (ifH : String → Bool)
    (url : String) (observer : Option String) (ssr : Bool)
    (rid : Option String) (eff : Eff)
    (h : primaryFetchFails B (parsePath url) observer networkErr) :
    (getStateAsync B ifH url observer ssr rid eff).2 =
      Except.error networkErr ∧
    (getStateAsync B ifH url observer ssr rid eff).1.resets =
      eff.resets + 2 := by
  obtain ⟨eff₁, hc, hr⟩ := contentStep_network_error B (parsePath url) observer
    ssr rid emptySnap eff h
  have hbody : getStateAsyncBody B ifH url observer ssr rid eff =
      (eff₁, Except.error networkErr) := by
    simp only [getStateAsyncBody, hc]
  have hmsg : networkErr.message = "Network request failed" := rfl
  constructor
  · simp [getStateAsync, hbody, hmsg]
  · simp [getStateAsync, hbody, hmsg]
    omega

/-- C2 witness for the amended statement, covering all three primary-fetch
variants: ranked posts (`trending`), account posts (`@alice`) and a
discussion thread (`funny/@bob/p1`). -/
theorem C2_witness :
    ((getStateAsync networkFailAllBackend (fun _ => false) "trending" none false
        (some "w2") eff0).2 = Except.error networkErr ∧
      (getStateAsync networkFailAllBackend (fun _ => false) "trending" none
        false (some "w2") eff0).1.resets = eff0.resets + 2) ∧
    ((getStateAsync networkFailAllBackend (fun _ => false) "@alice" none true
        (some "w2") eff0).2 = Except.error networkErr ∧
      (getStateAsync networkFailAllBackend (fun _ => false) "@alice" none true
        (some "w2") eff0).1.resets = eff0.resets + 2) ∧
    ((getStateAsync networkFailAllBackend (fun _ => false) "funny/@bob/p1" none
        false (some "w2") eff0).2 = Except.error networkErr ∧
      (getStateAsync networkFailAllBackend (fun _ => false) "funny/@bob/p1" none
        false (some "w2") eff0).1.resets = eff0.resets + 2) :=
  ⟨C2_network_error_double_reset networkFailAllBackend (fun _ => false)
      "trending" none false (some "w2") eff0 rfl,
    C2_network_error_double_reset networkFailAllBackend (fun _ => false)
      "@alice" none true (some "w2") eff0 rfl,
    C2_network_error_double_reset networkFailAllBackend (fun _ => false)
      "funny/@bob/p1" none false (some "w2") eff0 rfl⟩

/-- C3 counterexample: with request id `req-7` and URL `hot`, the failure
surfaced by `getStateAsync` is exactly the original backend error value —
no wrapping `HydrationError` carrying the request id and the URL exists. -/
theorem C3_counterexample :
    (getStateAsync remoteFailBackend (fun _ => false) "hot" none false
        (some "req-7") eff0).2 = Except.error ⟨"remote failure"⟩ := rfl

/-- C3 amended: EVERY unrecovered failure raised inside the `try` block of
`getStateAsync` — whichever step produced it (primary content fetch,
SSR profile fetch, SSR topics fetch, normalization) — is logged with
`{url, requestId}` context and then re-raised UNCHANGED to the caller; no
wrapping error value is constructed. -/
theorem C3_error_reraised_unchanged (B : Backend) (ifH : String → Bool)
    (url : String) (observer : Option String) (ssr : Bool)
    (rid : Option String) (eff eff₁ : Eff) (e : Err)
    (h : getStateAsyncBody B ifH url observer ssr rid eff =
      (eff₁, Except.error e)) :
    (getStateAsync B ifH url observer ssr rid eff).2 = Except.error e := by
  by_cases hm : e.message = "Network request failed" <;>
    simp [getStateAsync, h, hm]

/-- C3 witness for the amended statement at three distinct failure sites:
the primary ranked-posts fetch (`hot`), the SSR trending-topics fetch
(`@alice/settings`) and the SSR profile fetch (`@carol`); the surfaced
error is each time the original backend error value. -/
theorem C3_witness :
    (getStateAsync remoteFailBackend (fun _ => false) "hot" none false
        (some "w3") eff0).2 = Except.error ⟨"remote failure"⟩ ∧
    (getStateAsync topicsFailBackend (fun _ => false) "@alice/settings" none
        true (some "w3") eff0).2 = Except.error ⟨"topics down"⟩ ∧
    (getStateAsync profileErrBackend (fun _ => false) "@carol" none true
        (some "w3") eff0).2 = Except.error ⟨"profile unavailable"⟩ :=
  ⟨C3_error_reraised_unchanged remoteFailBackend (fun _ => false) "hot" none
      false (some "w3") eff0 _ ⟨"remote failure"⟩ rfl,
    C3_error_reraised_unchanged topicsFailBackend (fun _ => false)
      "@alice/settings" none true (some "w3") eff0 _ ⟨"topics down"⟩ rfl,
    C3_error_reraised_unchanged profileErrBackend (fun _ => false) "@carol" none
      true (some "w3") eff0 _ ⟨"profile unavailable"⟩ rfl⟩

/-- C5: the empty path, the bare slash and `trending` classify
identically, and every recognized sort keyword classifies as the posts
listing with that sort and the empty tag. -/
theorem C5_classifier_default_and_sorts :
    parsePath "" = parsePath "/" ∧ parsePath "/" = parsePath "trending" ∧
    ∀ s ∈ sortKeywords, parsePath s =
      { page := some "posts", tag := some "", sort := some s, key := none } := by
  refine ⟨rfl, rfl, ?_⟩
  intro s hs
  simp only [sortKeywords, List.mem_cons, List.not_mem_nil, or_false] at hs
  rcases hs with rfl | rfl | rfl | rfl | rfl | rfl | rfl <;> rfl

/-- C5 witness at the sort keyword `hot`. -/
theorem C5_witness :
    parsePath "hot" =
      { page := some "posts", tag := some "", sort := some "hot", key := none } :=
  C5_classifier_default_and_sorts.2.2 "hot" (by simp [sortKeywords])

theorem label_ne_base (base r : String) : base ++ "_" ++ r ≠ base := by
  intro h
  have hlen := congrArg String.length h
  rw [String.length_append, String.length_append] at hlen
  rw [show ("_" : String).length = 1 from rfl] at hlen
  omega

theorem label_inj (base a b : String) (h : base ++ "_" ++ a = base ++ "_" ++ b) :
    a = b := by
  have hd := congrArg String.data h
  simp only [String.data_append] at hd
  rw [List.append_assoc, List.append_assoc] at hd
  have h2 := List.append_cancel_left hd
  have h3 := List.append_cancel_left h2
  cases a
  cases b
  exact congrArg String.mk h3

theorem gen_fallback_ne (g : String) (n : Nat) :
    g ≠ generateUniqueLabel g none n := by
  intro h
  have hlen := congrArg String.length h
  simp only [generateUniqueLabel] at hlen
  rw [String.length_append, String.length_append, String.length_append,
    String.length_append] at hlen
  rw [show ("_" : String).length = 1 from rfl] at hlen
  omega

theorem safeConsoleTimeEnd_enabled (st : TimerState) (l : String)
    (r : Option String) : (safeConsoleTimeEnd st l r).enabled = st.enabled := by
  unfold safeConsoleTimeEnd
  split
  · split <;> (dsimp only; split <;> rfl)
  · rfl

theorem safeConsoleTime_disabled (st : TimerState) (l : String)
    (r : Option String) (h : st.enabled = false) :
    safeConsoleTime st l r = (st, none) := by
  simp [safeConsoleTime, h]

theorem safeConsoleTimeEnd_disabled (st : TimerState) (l : String)
    (r : Option String) (h : st.enabled = false) :
    safeConsoleTimeEnd st l r = st := by
  simp [safeConsoleTimeEnd, h]

theorem startAll_disabled (base : String) (rids : List String) :
    ∀ st : TimerState, st.enabled = false → startAll base rids st = st := by
  induction rids with
  | nil => intro st _; rfl
  | cons r rest ih =>
      intro st h
      show startAll base rest (safeConsoleTime st base (some r)).1 = st
      rw [safeConsoleTime_disabled st base (some r) h]
      exact ih st h

theorem stopAll_disabled (base : String) (rids : List String) :
    ∀ st : TimerState, st.enabled = false → stopAll base rids st = st := by
  induction rids with
  | nil => intro st _; rfl
  | cons r rest ih =>
      intro st h
      show stopAll base rest (safeConsoleTimeEnd st base (some r)) = st
      rw [safeConsoleTimeEnd_disabled st base (some r) h]
      exact ih st h

theorem mapDelete_head {α : Type} (m : List (String × α)) (k : String)
    (ks : List String) (hm : m.map Prod.fst = k :: ks) (hk : ¬ k ∈ ks) :
    (mapDelete m k).map Prod.fst = ks := by
  cases m with
  | nil => simp at hm
  | cons p rest =>
      obtain ⟨k₁, v₁⟩ := p
      rw [List.map_cons] at hm
      injection hm with h1 h2
      simp only at h1 h2
      have hhas : mapHas rest k = false := by
        by_contra hc
        have hc' : mapHas rest k = true := by
          revert hc
          cases mapHas rest k <;> simp
        exact hk (h2 ▸ (mapHas_true_iff _ _).mp hc')
      have hstep : mapDelete ((k₁, v₁) :: rest) k = mapDelete rest k := by
        simp [mapDelete, h1]
      rw [hstep, mapDelete_of_not_has rest k hhas]
      exact h2

theorem startAll_keys (base : String) (rids : List String) :
    ∀ st : TimerState, st.enabled = true → rids.Nodup →
      (∀ r ∈ rids, r ≠ "") →
      (∀ r ∈ rids, mapHas st.active (base ++ "_" ++ r) = false) →
      (startAll base rids st).enabled = true ∧
      (startAll base rids st).active.map Prod.fst =
        st.active.map Prod.fst ++ rids.map (fun r => base ++ "_" ++ r) := by
  induction rids with
  | nil =>
      intro st hen _ _ _
      exact ⟨hen, by simp [startAll]⟩
  | cons r rest ih =>
      intro st hen hnd hids hfresh
      have hstep : startAll base (r :: rest) st =
          startAll base rest (safeConsoleTime st base (some r)).1 := rfl
      have hgen : generateUniqueLabel base (some r) st.clock =
          base ++ "_" ++ r := by
        simp [generateUniqueLabel, hids r (List.mem_cons_self r rest)]
      have hr : mapHas st.active (base ++ "_" ++ r) = false :=
        hfresh r (List.mem_cons_self r rest)
      have hact : (safeConsoleTime st base (some r)).1.active =
          st.active ++ [(base ++ "_" ++ r, st.clock)] := by
        simp [safeConsoleTime, hen, hgen, mapSet_of_not_has _ _ _ hr]
      have hen' : (safeConsoleTime st base (some r)).1.enabled = true := by
        simp [safeConsoleTime, hen]
      have hfresh' : ∀ x ∈ rest,
          mapHas (safeConsoleTime st base (some r)).1.active
            (base ++ "_" ++ x) = false := by
        intro x hx
        rw [hact, mapHas_append]
        have hrx : r ≠ x := by
          intro hc
          exact (List.nodup_cons.mp hnd).1 (hc ▸ hx)
        have h1 : mapHas st.active (base ++ "_" ++ x) = false :=
          hfresh x (List.mem_cons_of_mem _ hx)
        have h2 : mapHas [(base ++ "_" ++ r, st.clock)]
            (base ++ "_" ++ x) = false := by
          simp only [mapHas]
          rw [if_neg]
          intro hc
          exact hrx (label_inj base r x hc)
        rw [h1, h2]
        rfl
      obtain ⟨he2, hmap⟩ := ih (safeConsoleTime st base (some r)).1 hen'
        (List.nodup_cons.mp hnd).2
        (fun x hx => hids x (List.mem_cons_of_mem _ hx)) hfresh'
      refine ⟨by rw [hstep]; exact he2, ?_⟩
      rw [hstep, hmap, hact]
      simp [List.map_append]

theorem stopAll_empties (base : String) (rids : List String) :
    ∀ st : TimerState, st.enabled = true → rids.Nodup →
      (∀ r ∈ rids, r ≠ "") →
      st.active.map Prod.fst = rids.map (fun r => base ++ "_" ++ r) →
      (stopAll base rids st).active = [] := by
  induction rids with
  | nil =>
      intro st _ _ _ hkeys
      simp only [List.map_nil] at hkeys
      exact List.map_eq_nil_iff.mp hkeys
  | cons r rest ih =>
      intro st hen hnd hids hkeys
      have hstep : stopAll base (r :: rest) st =
          stopAll base rest (safeConsoleTimeEnd st base (some r)) := rfl
      have hbase : mapHas st.active base = false := by
        by_contra hc
        have hc' : mapHas st.active base = true := by
          revert hc
          cases mapHas st.active base <;> simp
        have hmem := (mapHas_true_iff _ _).mp hc'
        rw [hkeys] at hmem
        rcases List.mem_map.mp hmem with ⟨x, _, hx⟩
        exact label_ne_base base x hx
      have hhead : mapHas st.active (base ++ "_" ++ r) = true := by
        rw [mapHas_true_iff, hkeys]
        exact List.mem_map.mpr ⟨r, List.mem_cons_self r rest, rfl⟩
      have hgen : generateUniqueLabel base (some r) st.clock =
          base ++ "_" ++ r := by
        simp [generateUniqueLabel, hids r (List.mem_cons_self r rest)]
      have hend : (safeConsoleTimeEnd st base (some r)).active =
          mapDelete st.active (base ++ "_" ++ r) := by
        simp [safeConsoleTimeEnd, hen, hbase, hgen, hhead]
      have hen' : (safeConsoleTimeEnd st base (some r)).enabled = true := by
        rw [safeConsoleTimeEnd_enabled]
        exact hen
      have hnotin : ¬ (base ++ "_" ++ r) ∈
          rest.map (fun x => base ++ "_" ++ x) := by
        intro hc
        rcases List.mem_map.mp hc with ⟨x, hx, hxe⟩
        have hxr : x = r := label_inj base x r hxe
        exact (List.nodup_cons.mp hnd).1 (hxr ▸ hx)
      have hkeys' : (safeConsoleTimeEnd st base (some r)).active.map Prod.fst =
          rest.map (fun x => base ++ "_" ++ x) := by
        rw [hend]
        exact mapDelete_head _ _ _ (hkeys.trans (List.map_cons _ _ _)) hnotin
      rw [hstep]
      exact ih _ hen' (List.nodup_cons.mp hnd).2
        (fun x hx => hids x (List.mem_cons_of_mem _ hx)) hkeys'

/-- C7: stopping a base label under one request id never removes the span
registered for the same base label under a different request id; and
starting then stopping N timers with pairwise-distinct request ids on a
shared base label leaves the registry with active count 0. Request ids
are required to be JS-truthy (non-empty): the source routes a falsy
`requestId` through the timestamp-plus-random fallback, i.e. treats it as
no request id at all. -/
theorem C7_stop_isolation_and_drain (base idA idB : String) (hne : idA ≠ idB)
    (hA : idA ≠ "") (st : TimerState) (rids : List String) (hnd : rids.Nodup)
    (hids : ∀ r ∈ rids, r ≠ "") (en : Bool) (c w : Nat) :
    mapHas (safeConsoleTimeEnd st base (some idA)).active (base ++ "_" ++ idB)
        = mapHas st.active (base ++ "_" ++ idB) ∧
    (stopAll base rids (startAll base rids ⟨en, [], c, w⟩)).active = [] ∧
    getActiveTimerCount (stopAll base rids (startAll base rids ⟨en, [], c, w⟩))
        = 0 := by
  have hdrain :
      (stopAll base rids (startAll base rids ⟨en, [], c, w⟩)).active = [] := by
    cases en with
    | false =>
        rw [startAll_disabled base rids _ rfl, stopAll_disabled base rids _ rfl]
    | true =>
        obtain ⟨hen2, hmap⟩ := startAll_keys base rids ⟨true, [], c, w⟩ rfl hnd
          hids (fun r _ => rfl)
        exact stopAll_empties base rids _ hen2 hnd hids (by simpa using hmap)
  refine ⟨?_, hdrain, by simp [getActiveTimerCount, hdrain]⟩
  by_cases hen : st.enabled
  · have hgen : generateUniqueLabel base (some idA) st.clock =
        base ++ "_" ++ idA := by
      simp [generateUniqueLabel, hA]
    by_cases h1 : mapHas st.active base
    · have hh : (safeConsoleTimeEnd st base (some idA)).active =
          mapDelete st.active base := by
        simp [safeConsoleTimeEnd, hen, h1]
      rw [hh]
      exact mapHas_mapDelete_ne st.active base (base ++ "_" ++ idB)
        (label_ne_base base idB)
    · have h1f : mapHas st.active base = false := by simpa using h1
      by_cases h2 : mapHas st.active (base ++ "_" ++ idA)
      · have hh : (safeConsoleTimeEnd st base (some idA)).active =
            mapDelete st.active (base ++ "_" ++ idA) := by
          simp [safeConsoleTimeEnd, hen, h1f, hgen, h2]
        rw [hh]
        refine mapHas_mapDelete_ne st.active (base ++ "_" ++ idA)
          (base ++ "_" ++ idB) ?_
        intro hc
        exact hne (label_inj base idB idA hc).symm
      · have h2f : mapHas st.active (base ++ "_" ++ idA) = false := by
          simpa using h2
        have hh : (safeConsoleTimeEnd st base (some idA)).active =
            st.active := by
          simp [safeConsoleTimeEnd, hen, h1f, hgen, h2f]
        rw [hh]
  · simp [safeConsoleTimeEnd, hen]

/-- C7 witness at concrete labels, request ids and registry contents. -/
theorem C7_witness :
    mapHas (safeConsoleTimeEnd ⟨true, [("op_b", 5)], 7, 0⟩ "op"
        (some "a")).active ("op" ++ "_" ++ "b")
      = mapHas (⟨true, [("op_b", 5)], 7, 0⟩ : TimerState).active
          ("op" ++ "_" ++ "b") ∧
    (stopAll "op" ["a", "b"] (startAll "op" ["a", "b"] ⟨true, [], 0, 0⟩)).active
      = [] ∧
    getActiveTimerCount
      (stopAll "op" ["a", "b"] (startAll "op" ["a", "b"] ⟨true, [], 0, 0⟩)) = 0 :=
  C7_stop_isolation_and_drain "op" "a" "b" (by decide) (by decide)
    ⟨true, [("op_b", 5)], 7, 0⟩ ["a", "b"] (by decide) (by decide) true 0 0

theorem applyOps_disabled : ∀ (ops : List TimerOp) (st : TimerState),
    st.enabled = false → applyOps st ops = st := by
  intro ops
  induction ops with
  | nil => intro st _; rfl
  | cons op rest ih =>
      intro st h
      have hop : applyOp st op = st := by
        cases op with
        | start l r => simp [applyOp, safeConsoleTime_disabled st l r h]
        | stop l r => simp [applyOp, safeConsoleTimeEnd_disabled st l r h]
      show applyOps (applyOp st op) rest = st
      rw [hop]
      exact ih st h

/-- C8: with the enable flag off, any sequence of start/stop calls leaves
the registry state untouched — the map stays empty and the active count
stays 0. -/
theorem C8_disabled_registry_empty (ops : List TimerOp) (c w : Nat) :
    applyOps ⟨false, [], c, w⟩ ops = ⟨false, [], c, w⟩ ∧
    (applyOps ⟨false, [], c, w⟩ ops).active = [] ∧
    getActiveTimerCount (applyOps ⟨false, [], c, w⟩ ops) = 0 := by
  have h := applyOps_disabled ops ⟨false, [], c, w⟩ rfl
  exact ⟨h, by rw [h], by rw [h]; rfl⟩

/-- C9: `safeTimedExecution` returns the operation's own outcome on both
exit paths (success value or failure re-raised unchanged), and when timing
is enabled the span it registered is no longer active afterwards. The
operation may transform the registry but, like the source's constant
`ENABLE_TIMING`, cannot flip the enable flag. -/
theorem C9_safeTimedExecution_spec {α : Type} (st : TimerState) (label : String)
    (fn : TimerState → TimerState × Except Err α) (rid : Option String)
    (hfn : ∀ t, ((fn t).1).enabled = t.enabled) :
    (st.enabled = false → safeTimedExecution st label fn rid = fn st) ∧
    (st.enabled = true →
      (safeTimedExecution st label fn rid).2 =
        (fn (safeConsoleTime st label rid).1).2 ∧
      ∀ ul, (safeConsoleTime st label rid).2 = some ul →
        mapHas (safeTimedExecution st label fn rid).1.active ul = false) := by
  constructor
  · intro h
    simp [safeTimedExecution, h]
  · intro h
    constructor
    · simp [safeTimedExecution, h]
    · intro ul hul
      have hexec : (safeTimedExecution st label fn rid).1 =
          safeConsoleTimeEnd (fn (safeConsoleTime st label rid).1).1 ul none := by
        simp [safeTimedExecution, h, hul]
      rw [hexec]
      generalize hT : (fn (safeConsoleTime st label rid).1).1 = T
      have hTen : T.enabled = true := by
        rw [← hT, hfn]
        simp [safeConsoleTime, h]
      by_cases h1 : mapHas T.active ul
      · have hh : (safeConsoleTimeEnd T ul none).active =
            mapDelete T.active ul := by
          simp [safeConsoleTimeEnd, hTen, h1]
        rw [hh]
        exact mapHas_mapDelete_self T.active ul
      · have h1f : mapHas T.active ul = false := by simpa using h1
        by_cases h2 : mapHas T.active (generateUniqueLabel ul none T.clock)
        · have hh : (safeConsoleTimeEnd T ul none).active =
              mapDelete T.active (generateUniqueLabel ul none T.clock) := by
            simp [safeConsoleTimeEnd, hTen, h1f, h2]
          rw [hh]
          rw [mapHas_mapDelete_ne T.active _ ul (gen_fallback_ne ul T.clock)]
          exact h1f
        · have h2f : mapHas T.active (generateUniqueLabel ul none T.clock)
              = false := by simpa using h2
          have hh : (safeConsoleTimeEnd T ul none).active = T.active := by
            simp [safeConsoleTimeEnd, hTen, h1f, h2f]
          rw [hh]
          exact h1f

/-- C9 witness: a concrete successful operation under an enabled registry. -/
theorem C9_witness :
    (safeTimedExecution ⟨true, [], 0, 0⟩ "op"
        (fun t => (t, Except.ok (5 : Nat))) (some "w9")).2 = Except.ok 5 ∧
    mapHas (safeTimedExecution ⟨true, [], 0, 0⟩ "op"
        (fun t => (t, Except.ok (5 : Nat))) (some "w9")).1.active "op_w9"
      = false := by
  have h := C9_safeTimedExecution_spec (⟨true, [], 0, 0⟩ : TimerState) "op"
    (fun t => (t, Except.ok (5 : Nat))) (some "w9") (fun t => rfl)
  have h2 := h.2 rfl
  exact ⟨h2.1.trans rfl, h2.2 "op_w9" rfl⟩
